import Mathlib

/-!
Verification of the actix-web-opentelemetry instrumentation crate.

Shallow embedding of the crate's pure logic:

* `src/client.rs` — client request tracer: `default_span_namer`,
  `convert_status`, `record_response` / `record_err`, the response pipeline of
  `InstrumentedClientRequest::trace_request`, and the header `Injector`
  `ActixClientCarrier::set`.
* `src/middleware/trace.rs` — server request tracer: the route-label
  computation, the response/error mapping of `RequestTracingMiddleware::call`
  (legacy `opentelemetry::api::StatusCode` codes), and the header `Extractor`
  `RequestHeaderCarrier::get`.
* `src/middleware/metrics.rs` — metrics middleware event sequence and the
  Prometheus scrape handler.
* `src/middleware/route_formatter.rs` — the UUID-eliding route formatter
  (regex `[0-9a-fA-F]{8}-…` replaced by an asterisk).
* `src/util.rs` — `http_url`.

The propagation wire formats (W3C traceparent, B3 single and multi header)
live in the external opentelemetry SDK and are modelled from the spec.
-/

namespace ActixWebOtel

/-! ## Header carrier

Actix header maps, as used by both carriers, modelled as an association list
of string keys and string values.  `HeaderMap::insert` replaces every prior
value stored under the key. -/

/-- A mutable string-keyed, string-valued header collection. -/
def Headers : Type := List (String × String)

/-- HeaderMap lookup, as used by RequestHeaderCarrier (trace.rs): the first
value stored under the key, if any. -/
def getHeader (h : Headers) (k : String) : Option String :=
  match h with
  | [] => none
  | (k₂, v) :: rest => if k₂ = k then some v else getHeader rest k

/-- Removal of every entry stored under a key, the effect HeaderMap insert
has on prior values of the key. -/
def removeHeader (h : Headers) (k : String) : Headers :=
  match h with
  | [] => []
  | (k₂, v) :: rest =>
      if k₂ = k then removeHeader rest k else (k₂, v) :: removeHeader rest k

/-- HeaderMap insert, as used by ActixClientCarrier (client.rs): overwrites
every prior value stored under the key. -/
def setHeader (h : Headers) (k v : String) : Headers :=
  (k, v) :: removeHeader h k

theorem getHeader_setHeader_same (h : Headers) (k v : String) :
    getHeader (setHeader h k v) k = some v := by
  simp [getHeader, setHeader]

theorem getHeader_removeHeader_ne (h : Headers) (k k₂ : String)
    (hne : k₂ ≠ k) : getHeader (removeHeader h k) k₂ = getHeader h k₂ := by
  induction h with
  | nil => rfl
  | cons e rest ih =>
    obtain ⟨ek, ev⟩ := e
    by_cases he : ek = k
    · have hek : ¬ ek = k₂ := fun hc => hne (hc ▸ he)
      rw [removeHeader, if_pos he, ih, getHeader, if_neg hek]
    · rw [removeHeader, if_neg he, getHeader, getHeader]
      by_cases hek : ek = k₂
      · rw [if_pos hek, if_pos hek]
      · rw [if_neg hek, if_neg hek, ih]

theorem getHeader_setHeader_ne (h : Headers) (k k₂ v : String) (hne : k₂ ≠ k) :
    getHeader (setHeader h k v) k₂ = getHeader h k₂ := by
  have hkk : ¬ k = k₂ := fun hc => hne hc.symm
  rw [setHeader, getHeader, if_neg hkk]
  exact getHeader_removeHeader_ne h k k₂ hne

/-! ## Span status types

The client tracer (client.rs) uses the current opentelemetry API status; the
server tracer (middleware/trace.rs) uses the legacy gRPC-style
`opentelemetry::api::StatusCode` enum. -/

/-- Span status of the current OpenTelemetry API, `opentelemetry::trace::Status`:
unset, ok, or error with a description. -/
inductive Status where
  | unset : Status
  | ok : Status
  | error (description : String) : Status
deriving DecidableEq, Repr

/-- Whether a current-API status is an error status. -/
def Status.isError : Status → Bool
  | Status.error _ => true
  | _ => false

/-- Legacy gRPC-style span status codes of `opentelemetry::api::StatusCode`
as used by the server middleware.  `ok` is the only non-error code. -/
inductive GrpcStatusCode where
  | ok
  | unauthenticated
  | permissionDenied
  | notFound
  | resourceExhausted
  | invalidArgument
  | unimplemented
  | unavailable
  | deadlineExceeded
  | internal
  | unknown
deriving DecidableEq, Repr

/-- Whether a legacy status code marks the span as failed: every code other
than ok is an error code in the gRPC-derived model. -/
def GrpcStatusCode.isError (s : GrpcStatusCode) : Bool :=
  s ≠ GrpcStatusCode.ok

/-! ## Client tracer (src/client.rs) -/

/-- Convert an HTTP status code to a span status, from `convert_status`
(client.rs lines 298-305): 100-399 is unset, 400-599 is an error (the client
must treat 4xx as error), anything else is an error naming the invalid code. -/
def convert_status (code : Nat) : Status :=
  if 100 ≤ code ∧ code ≤ 399 then Status.unset
  else if 400 ≤ code ∧ code ≤ 599 then Status.error "Unexpected status code"
  else Status.error ("Invalid HTTP status code " ++ toString code)

/-- State of the client span when it is ended. -/
structure ClientSpanEnd where
  status : Status
  httpStatusAttr : Option Nat
  ended : Bool
deriving DecidableEq, Repr

/-- Effect of `record_response` (client.rs lines 307-313): set the converted
status, record the numeric status-code attribute, end the span. -/
def record_response (code : Nat) : ClientSpanEnd :=
  { status := convert_status code
    httpStatusAttr := some code
    ended := true }

/-- Effect of `record_err` (client.rs lines 315-319): error status with the
debug formatting of the error, no status attribute, end the span. -/
def record_err (dbgMsg : String) : ClientSpanEnd :=
  { status := Status.error dbgMsg
    httpStatusAttr := none
    ended := true }

/-- Outcome pipeline of `InstrumentedClientRequest::trace_request` (client.rs
lines 231-234): `inspect_ok` records the response, `inspect_err` records the
error, and the underlying result is returned untouched in both cases.
`status` extracts the numeric HTTP status of a response and `dbg` is the debug
formatting of an error. -/
def client_trace_outcome {ε ρ : Type} (status : ρ → Nat) (dbg : ε → String)
    (res : Except ε ρ) : Except ε ρ × ClientSpanEnd :=
  match res with
  | Except.ok r => (Except.ok r, record_response (status r))
  | Except.error e => (Except.error e, record_err (dbg e))

/-! ## URIs and client span naming -/

/-- The parts of an http URI that client.rs and util.rs read. -/
structure Uri where
  scheme : Option String
  host : Option String
  port : Option Nat
  path : String
  query : Option String
deriving DecidableEq, Repr

/-- The parts of an awc ClientRequest that the client tracer reads. -/
structure ClientRequest where
  method : String
  uri : Uri
  headers : List (String × String)

/-- Default client span name, from `default_span_namer` (client.rs lines
55-61): the method, a space, and the URI host (empty when the URI has none). -/
def default_span_namer (request : ClientRequest) : String :=
  request.method ++ " " ++ request.uri.host.getD ""

/-- Name given to the client span by `trace_request` (client.rs lines
220-224): the configured namer applied to the request; `default_span_namer`
when the caller supplied none. -/
def client_span_name (namer : Option (ClientRequest → String))
    (request : ClientRequest) : String :=
  (namer.getD default_span_namer) request

/-- Full request URL, from `http_url` (util.rs lines 15-31):
scheme://host[:port]path[?query], the port elided when it is 80 or 443. -/
def http_url (uri : Uri) : String :=
  let scheme := (uri.scheme.getD "")
  let host := (uri.host.getD "")
  let path := uri.path
  let port := uri.port.filter (fun p => p ≠ 80 ∧ p ≠ 443)
  let pair : String × String :=
    match uri.query with
    | some q => (q, "?")
    | none => ("", "")
  match port with
  | some p =>
      scheme ++ "://" ++ host ++ ":" ++ toString p ++ path ++ pair.2 ++ pair.1
  | none => scheme ++ "://" ++ host ++ path ++ pair.2 ++ pair.1

/-- The span name claimed by the spec for client requests, modelled from the
spec words: method, space, scheme, "://", authority, path. -/
def spec_claimed_client_span_name (request : ClientRequest) : String :=
  request.method ++ " " ++ request.uri.scheme.getD "" ++ "://" ++
    request.uri.host.getD "" ++ request.uri.path

/-! ## Server tracer (src/middleware/trace.rs) -/

/-- Route label of the tracing middleware (trace.rs lines 180-185): the
matched route pattern, or the literal label "unmatched" when routing matched
no pattern, then the optional route formatter. -/
def trace_http_route (matchPattern : Option String)
    (formatter : Option (String → String)) : String :=
  let base := matchPattern.getD "unmatched"
  match formatter with
  | some f => f base
  | none => base

/-- Route label of the metrics middleware (metrics.rs lines 240-247): the
matched route pattern, or the literal label "default" when routing matched no
pattern, then the optional route formatter. -/
def metrics_http_route (matchPattern : Option String)
    (formatter : Option (String → String)) : String :=
  let base := matchPattern.getD "default"
  match formatter with
  | some f => f base
  | none => base

/-- Legacy status code chosen by the server tracer for a response status
(trace.rs lines 236-248), mirroring the match arms in order. -/
def trace_status_code (code : Nat) : GrpcStatusCode :=
  if 100 ≤ code ∧ code ≤ 399 then GrpcStatusCode.ok
  else if code = 401 then GrpcStatusCode.unauthenticated
  else if code = 403 then GrpcStatusCode.permissionDenied
  else if code = 404 then GrpcStatusCode.notFound
  else if code = 429 then GrpcStatusCode.resourceExhausted
  else if 400 ≤ code ∧ code ≤ 499 then GrpcStatusCode.invalidArgument
  else if code = 501 then GrpcStatusCode.unimplemented
  else if code = 503 then GrpcStatusCode.unavailable
  else if code = 504 then GrpcStatusCode.deadlineExceeded
  else if 500 ≤ code ∧ code ≤ 599 then GrpcStatusCode.internal
  else GrpcStatusCode.unknown

/-- State of the server span when it is ended. -/
structure LegacySpanEnd where
  statusCode : GrpcStatusCode
  description : String
  httpStatusAttr : Option Nat
  statusTextAttr : Option String
  ended : Bool
deriving DecidableEq, Repr

/-- Response/error mapping of `RequestTracingMiddleware::call` (trace.rs lines
226-259).  On handler success: record the status-code attribute, the textual
reason when the status has one, set the mapped legacy status with an empty
description, end the span, return the response unchanged.  On handler error:
set status internal with the debug formatting of the error, end the span,
return the error unchanged.  `status` extracts the numeric HTTP status,
`reason` the canonical reason text, `dbg` the debug formatting. -/
def trace_map_result {ε ρ : Type} (status : ρ → Nat)
    (reason : Nat → Option String) (dbg : ε → String)
    (res : Except ε ρ) : Except ε ρ × LegacySpanEnd :=
  match res with
  | Except.ok r =>
      (Except.ok r,
       { statusCode := trace_status_code (status r)
         description := ""
         httpStatusAttr := some (status r)
         statusTextAttr := reason (status r)
         ended := true })
  | Except.error e =>
      (Except.error e,
       { statusCode := GrpcStatusCode.internal
         description := dbg e
         httpStatusAttr := none
         statusTextAttr := none
         ended := true })

/-! ## Claim theorems about status classification, naming and routes -/

/-- C2: the client tracer classifies response statuses by a fixed total rule:
100-399 yields the non-error unset status, 400-599 yields an error status,
and any other code yields an error status whose description names the
invalid code. -/
theorem convert_status_classification (code : Nat) :
    (100 ≤ code ∧ code ≤ 399 → convert_status code = Status.unset ∧
      (convert_status code).isError = false) ∧
    (400 ≤ code ∧ code ≤ 599 → (convert_status code).isError = true) ∧
    (¬ (100 ≤ code ∧ code ≤ 599) →
      convert_status code =
        Status.error ("Invalid HTTP status code " ++ toString code) ∧
      (convert_status code).isError = true) := by
  refine ⟨fun h => ?_, fun h => ?_, fun h => ?_⟩
  · rw [convert_status, if_pos h]
    exact ⟨rfl, rfl⟩
  · have h1 : ¬ (100 ≤ code ∧ code ≤ 399) := by omega
    rw [convert_status, if_neg h1, if_pos h]
    rfl
  · have h1 : ¬ (100 ≤ code ∧ code ≤ 399) := by omega
    have h2 : ¬ (400 ≤ code ∧ code ≤ 599) := by omega
    rw [convert_status, if_neg h1, if_neg h2]
    exact ⟨rfl, rfl⟩

theorem convert_status_classification_witness :
    (convert_status 200 = Status.unset ∧
      (convert_status 200).isError = false) ∧
    (convert_status 404).isError = true ∧
    (convert_status 99 =
      Status.error ("Invalid HTTP status code " ++ toString 99) ∧
      (convert_status 99).isError = true) :=
  ⟨(convert_status_classification 200).1 (by decide),
   (convert_status_classification 404).2.1 (by decide),
   (convert_status_classification 99).2.2 (by decide)⟩

/-- C3 counterexample: the server tracer maps the response status 404 to the
legacy status code notFound, which is an error (non-ok) code, so statuses in
400-499 are marked error server-side, contrary to the claim. -/
theorem trace_status_404_marked_error :
    trace_status_code 404 = GrpcStatusCode.notFound ∧
    (trace_status_code 404).isError = true ∧
    trace_status_code 404 ≠ GrpcStatusCode.ok := by
  refine ⟨by decide, by decide, by decide⟩

/-- C3 amended: on handler success the server tracer sets a gRPC-style status
with an always-empty description: ok exactly for 100-399; dedicated error
codes for 401, 403, 404, 429 and invalidArgument for the remaining 400-499;
dedicated codes for 501, 503, 504 and internal for the remaining 500-599;
unknown for every other code.  In particular every 4xx is marked with an
error (non-ok) code. -/
theorem trace_status_ok_iff (code : Nat) :
    trace_status_code code = GrpcStatusCode.ok ↔ 100 ≤ code ∧ code ≤ 399 := by
  constructor
  · intro hok
    rw [trace_status_code] at hok
    split_ifs at hok with h1
    exact h1
  · intro hr
    rw [trace_status_code, if_pos hr]

theorem trace_status_nonOk_of_not_1xx3xx (code : Nat)
    (h1 : ¬ (100 ≤ code ∧ code ≤ 399)) :
    (trace_status_code code).isError = true := by
  rw [trace_status_code, if_neg h1]
  split_ifs <;> decide

theorem trace_status_invalidArgument (code : Nat)
    (h : 400 ≤ code ∧ code ≤ 499 ∧ code ≠ 401 ∧ code ≠ 403 ∧ code ≠ 404 ∧
      code ≠ 429) :
    trace_status_code code = GrpcStatusCode.invalidArgument := by
  obtain ⟨h1, h2, h3, h4, h5, h6⟩ := h
  have g1 : ¬ (100 ≤ code ∧ code ≤ 399) := by omega
  rw [trace_status_code, if_neg g1, if_neg h3, if_neg h4, if_neg h5, if_neg h6,
    if_pos (And.intro h1 h2)]

theorem trace_status_internal (code : Nat)
    (h : 500 ≤ code ∧ code ≤ 599 ∧ code ≠ 501 ∧ code ≠ 503 ∧ code ≠ 504) :
    trace_status_code code = GrpcStatusCode.internal := by
  obtain ⟨h1, h2, h3, h4, h5⟩ := h
  have g1 : ¬ (100 ≤ code ∧ code ≤ 399) := by omega
  have g2 : ¬ code = 401 := by omega
  have g3 : ¬ code = 403 := by omega
  have g4 : ¬ code = 404 := by omega
  have g5 : ¬ code = 429 := by omega
  have g6 : ¬ (400 ≤ code ∧ code ≤ 499) := by omega
  rw [trace_status_code, if_neg g1, if_neg g2, if_neg g3, if_neg g4, if_neg g5,
    if_neg g6, if_neg h3, if_neg h4, if_neg h5, if_pos (And.intro h1 h2)]

theorem trace_status_unknown_of_out_of_range (code : Nat)
    (h : ¬ (100 ≤ code ∧ code ≤ 599)) :
    trace_status_code code = GrpcStatusCode.unknown := by
  have h1 : ¬ (100 ≤ code ∧ code ≤ 399) := by omega
  have h2 : ¬ code = 401 := by omega
  have h3 : ¬ code = 403 := by omega
  have h4 : ¬ code = 404 := by omega
  have h5 : ¬ code = 429 := by omega
  have h6 : ¬ (400 ≤ code ∧ code ≤ 499) := by omega
  have h7 : ¬ code = 501 := by omega
  have h8 : ¬ code = 503 := by omega
  have h9 : ¬ code = 504 := by omega
  have h10 : ¬ (500 ≤ code ∧ code ≤ 599) := by omega
  rw [trace_status_code, if_neg h1, if_neg h2, if_neg h3, if_neg h4,
    if_neg h5, if_neg h6, if_neg h7, if_neg h8, if_neg h9, if_neg h10]

theorem trace_status_code_classification {ε ρ : Type} (status : ρ → Nat)
    (reason : Nat → Option String) (dbg : ε → String) (r : ρ) (code : Nat) :
    (trace_status_code code = GrpcStatusCode.ok ↔ 100 ≤ code ∧ code ≤ 399) ∧
    (400 ≤ code ∧ code ≤ 499 → (trace_status_code code).isError = true) ∧
    (500 ≤ code ∧ code ≤ 599 → (trace_status_code code).isError = true) ∧
    (¬ (100 ≤ code ∧ code ≤ 599) → trace_status_code code = GrpcStatusCode.unknown) ∧
    (trace_map_result status reason dbg (Except.ok r)).2.description = "" ∧
    trace_status_code 401 = GrpcStatusCode.unauthenticated ∧
    trace_status_code 403 = GrpcStatusCode.permissionDenied ∧
    trace_status_code 404 = GrpcStatusCode.notFound ∧
    trace_status_code 429 = GrpcStatusCode.resourceExhausted ∧
    (400 ≤ code ∧ code ≤ 499 ∧ code ≠ 401 ∧ code ≠ 403 ∧ code ≠ 404 ∧
      code ≠ 429 → trace_status_code code = GrpcStatusCode.invalidArgument) ∧
    trace_status_code 501 = GrpcStatusCode.unimplemented ∧
    trace_status_code 503 = GrpcStatusCode.unavailable ∧
    trace_status_code 504 = GrpcStatusCode.deadlineExceeded ∧
    (500 ≤ code ∧ code ≤ 599 ∧ code ≠ 501 ∧ code ≠ 503 ∧ code ≠ 504 →
      trace_status_code code = GrpcStatusCode.internal) ∧
    (trace_map_result status reason dbg (Except.ok r)).2.statusCode =
      trace_status_code (status r) ∧
    (trace_map_result status reason dbg (Except.ok r)).2.statusTextAttr =
      reason (status r) :=
  ⟨trace_status_ok_iff code,
   fun h => trace_status_nonOk_of_not_1xx3xx code (by omega),
   fun h => trace_status_nonOk_of_not_1xx3xx code (by omega),
   fun h => trace_status_unknown_of_out_of_range code h,
   rfl,
   by decide, by decide, by decide, by decide,
   fun h => trace_status_invalidArgument code h,
   by decide, by decide, by decide,
   fun h => trace_status_internal code h,
   rfl, rfl⟩

theorem trace_status_code_classification_witness :
    (trace_status_code 200 = GrpcStatusCode.ok ↔ 100 ≤ 200 ∧ 200 ≤ 399) ∧
    (trace_status_code 404).isError = true ∧
    (trace_status_code 500).isError = true ∧
    trace_status_code 600 = GrpcStatusCode.unknown ∧
    trace_status_code 418 = GrpcStatusCode.invalidArgument ∧
    trace_status_code 599 = GrpcStatusCode.internal ∧
    (trace_map_result (fun _ : Unit => 200) (fun _ => some "OK")
      (fun _ : Unit => "") (Except.ok ())).2.description = "" ∧
    (trace_map_result (fun _ : Unit => 200) (fun _ => some "OK")
      (fun _ : Unit => "") (Except.ok ())).2.statusTextAttr = some "OK" := by
  have h404 := trace_status_code_classification (fun _ : Unit => 200)
    (fun _ => some "OK") (fun _ : Unit => "") () 404
  have h200 := trace_status_code_classification (fun _ : Unit => 200)
    (fun _ => some "OK") (fun _ : Unit => "") () 200
  have h500 := trace_status_code_classification (fun _ : Unit => 200)
    (fun _ => some "OK") (fun _ : Unit => "") () 500
  have h600 := trace_status_code_classification (fun _ : Unit => 200)
    (fun _ => some "OK") (fun _ : Unit => "") () 600
  have h418 := trace_status_code_classification (fun _ : Unit => 200)
    (fun _ => some "OK") (fun _ : Unit => "") () 418
  have h599 := trace_status_code_classification (fun _ : Unit => 200)
    (fun _ => some "OK") (fun _ : Unit => "") () 599
  obtain ⟨a1, a2, a3, a4, a5, a6, a7, a8, a9, a10, a11, a12, a13, a14, a15, a16⟩ :=
    h200
  obtain ⟨b1, b2, b3, b4, b5, b6, b7, b8, b9, b10, b11, b12, b13, b14, b15, b16⟩ :=
    h404
  obtain ⟨c1, c2, c3, c4, c5, c6, c7, c8, c9, c10, c11, c12, c13, c14, c15, c16⟩ :=
    h500
  obtain ⟨d1, d2, d3, d4, d5, d6, d7, d8, d9, d10, d11, d12, d13, d14, d15, d16⟩ :=
    h600
  obtain ⟨e1, e2, e3, e4, e5, e6, e7, e8, e9, e10, e11, e12, e13, e14, e15, e16⟩ :=
    h418
  obtain ⟨f1, f2, f3, f4, f5, f6, f7, f8, f9, f10, f11, f12, f13, f14, f15, f16⟩ :=
    h599
  exact ⟨a1, b2 (by decide), c3 (by decide), d4 (by decide),
    e10 (by decide), f14 (by decide), a5, a16⟩

/-- C4: both tracers return the inner result unchanged; on an error outcome
the span is ended with an error status carrying the debug formatting of the
error, with the error value itself passed through untouched. -/
theorem error_passthrough {ε ρ : Type} (status : ρ → Nat)
    (reason : Nat → Option String) (dbg : ε → String)
    (res : Except ε ρ) (e : ε) :
    (trace_map_result status reason dbg res).1 = res ∧
    (client_trace_outcome status dbg res).1 = res ∧
    (trace_map_result status reason dbg (Except.error e)).1 = Except.error e ∧
    (trace_map_result status reason dbg (Except.error e)).2.statusCode =
      GrpcStatusCode.internal ∧
    (trace_map_result status reason dbg (Except.error e)).2.description = dbg e ∧
    (trace_map_result status reason dbg (Except.error e)).2.ended = true ∧
    (client_trace_outcome status dbg (Except.error e)).1 = Except.error e ∧
    (client_trace_outcome status dbg (Except.error e)).2.status =
      Status.error (dbg e) ∧
    (client_trace_outcome status dbg (Except.error e)).2.ended = true := by
  refine ⟨?_, ?_, rfl, rfl, rfl, rfl, rfl, rfl, rfl⟩
  · cases res <;> rfl
  · cases res <;> rfl

/-- C5 counterexample: for a GET request to http://example.com/foo the default
client span name is "GET example.com", not the claimed
"GET http://example.com/foo". -/
theorem default_span_namer_counterexample :
    default_span_namer
      { method := "GET"
        uri := { scheme := some "http", host := some "example.com",
                 port := none, path := "/foo", query := none }
        headers := [] } = "GET example.com" ∧
    spec_claimed_client_span_name
      { method := "GET"
        uri := { scheme := some "http", host := some "example.com",
                 port := none, path := "/foo", query := none }
        headers := [] } = "GET http://example.com/foo" ∧
    ("GET example.com" : String) ≠ "GET http://example.com/foo" := by
  refine ⟨rfl, rfl, by decide⟩

/-- C5 amended: for every outbound client request with no caller-supplied
naming function, the span created by the client tracer is named with the
method, a space, and the request URI's host, the host rendered as the empty
string when the URI has none. -/
theorem default_span_namer_amended (m : String) (u : Uri)
    (hs : List (String × String)) :
    client_span_name none { method := m, uri := u, headers := hs } =
      m ++ " " ++ u.host.getD "" ∧
    default_span_namer { method := m, uri := u, headers := hs } =
      m ++ " " ++ u.host.getD "" ∧
    (∀ h₂, u.host = some h₂ →
      default_span_namer { method := m, uri := u, headers := hs } =
        m ++ " " ++ h₂) ∧
    (u.host = none →
      default_span_namer { method := m, uri := u, headers := hs } =
        m ++ " ") := by
  refine ⟨rfl, rfl, ?_, ?_⟩
  · intro h₂ hh
    simp [default_span_namer, hh]
  · intro hh
    simp [default_span_namer, hh]

theorem default_span_namer_amended_witness :
    default_span_namer
      { method := "GET"
        uri := { scheme := some "http", host := some "example.com",
                 port := none, path := "/foo", query := none }
        headers := [] } = "GET" ++ " " ++ "example.com" ∧
    default_span_namer
      { method := "GET"
        uri := { scheme := none, host := none, port := none, path := "/foo",
                 query := none }
        headers := [] } = "GET" ++ " " :=
  ⟨(default_span_namer_amended "GET"
      { scheme := some "http", host := some "example.com", port := none,
        path := "/foo", query := none } []).2.2.1 "example.com" rfl,
   (default_span_namer_amended "GET"
      { scheme := none, host := none, port := none, path := "/foo",
        query := none } []).2.2.2 rfl⟩

/-- C6 counterexample: when no route pattern matches, the tracing middleware
labels the route "unmatched", not "default" (the "default" label belongs to
the metrics middleware). -/
theorem trace_route_counterexample :
    trace_http_route none none = "unmatched" ∧
    trace_http_route none none ≠ "default" := by
  refine ⟨rfl, by decide⟩

/-- C6 amended: before the optional formatter the tracing middleware uses the
matched pattern and falls back to "unmatched"; the metrics middleware uses
the matched pattern and falls back to "default"; the optional formatter is
applied to that base label. -/
theorem route_label_defaults (p : String) (f : String → String) :
    trace_http_route none none = "unmatched" ∧
    metrics_http_route none none = "default" ∧
    trace_http_route (some p) none = p ∧
    metrics_http_route (some p) none = p ∧
    trace_http_route none (some f) = f "unmatched" ∧
    metrics_http_route none (some f) = f "default" ∧
    trace_http_route (some p) (some f) = f p ∧
    metrics_http_route (some p) (some f) = f p := by
  exact ⟨rfl, rfl, rfl, rfl, rfl, rfl, rfl, rfl⟩

/-! ## Header injection validity (src/client.rs, ActixClientCarrier) -/

/-- Modelled from the spec: the transport's constraint on HTTP header value
characters, enforced by the HeaderValue construction the injector performs:
horizontal tab or any non-control character (codepoint at least 32, not the
delete character 127). -/
def isValidHeaderValueChar (c : Char) : Bool :=
  c.toNat = 9 ∨ (32 ≤ c.toNat ∧ c.toNat ≠ 127)

/-- Whether every character of a string is valid in an HTTP header value. -/
def isValidHeaderValue (v : String) : Bool :=
  v.data.all isValidHeaderValueChar

/-- Modelled from the spec: the transport's constraint on HTTP header name
characters: ASCII letters, digits, and the token specials of the header-name
grammar. -/
def isValidHeaderNameChar (c : Char) : Bool :=
  (97 ≤ c.toNat ∧ c.toNat ≤ 122) ∨ (65 ≤ c.toNat ∧ c.toNat ≤ 90) ∨
  (48 ≤ c.toNat ∧ c.toNat ≤ 57) ∨
  c.toNat ∈ [33, 35, 36, 37, 38, 39, 42, 43, 45, 46, 94, 95, 96, 124, 126]

/-- Whether a string is a valid HTTP header name: nonempty and made of valid
name characters. -/
def isValidHeaderName (k : String) : Bool :=
  (!k.data.isEmpty) && k.data.all isValidHeaderNameChar

/-- Header name normalization performed by the HeaderName construction:
ASCII uppercase letters are lowercased. -/
def normalizeHeaderChar (c : Char) : Char :=
  if 65 ≤ c.toNat ∧ c.toNat ≤ 90 then Char.ofNat (c.toNat + 32) else c

/-- Normalization of a full header name to lowercase. -/
def normalizeHeaderName (k : String) : String :=
  String.mk (k.data.map normalizeHeaderChar)

/-- The propagation injector `ActixClientCarrier::set` (client.rs lines
331-337): build a HeaderName and a HeaderValue from the key and value,
panicking (modelled as none) when either is invalid, and insert into the
request headers, overwriting prior values of the key. -/
def ActixClientCarrier.set (headers : Headers) (key value : String) :
    Option Headers :=
  if isValidHeaderName key then
    if isValidHeaderValue value then
      some (setHeader headers (normalizeHeaderName key) value)
    else none
  else none

/-- C7: injecting a key/value pair succeeds and stores the value under the
key (overwriting any prior value) whenever the key is a valid header name and
the value is made of valid header-value characters; a value with an invalid
character makes the injector panic (modelled as none) instead of writing. -/
theorem injector_set_valid (headers : Headers) (key value bad : String)
    (hk : isValidHeaderName key = true) (hv : isValidHeaderValue value = true)
    (hb : isValidHeaderValue bad = false) :
    ActixClientCarrier.set headers key value =
      some (setHeader headers (normalizeHeaderName key) value) ∧
    getHeader (setHeader headers (normalizeHeaderName key) value)
      (normalizeHeaderName key) = some value ∧
    ActixClientCarrier.set headers key bad = none := by
  refine ⟨?_, getHeader_setHeader_same _ _ _, ?_⟩
  · rw [ActixClientCarrier.set, if_pos hk, if_pos hv]
  · rw [ActixClientCarrier.set, if_pos hk, if_neg (by simp [hb])]

theorem injector_set_valid_witness :
    ActixClientCarrier.set [("traceparent", "old")] "traceparent" "00-abc-01" =
      some (setHeader [("traceparent", "old")]
        (normalizeHeaderName "traceparent") "00-abc-01") ∧
    getHeader (setHeader [("traceparent", "old")]
        (normalizeHeaderName "traceparent") "00-abc-01")
      (normalizeHeaderName "traceparent") = some "00-abc-01" ∧
    ActixClientCarrier.set [("traceparent", "old")] "traceparent"
      (String.mk [Char.ofNat 0]) = none :=
  injector_set_valid [("traceparent", "old")] "traceparent" "00-abc-01"
    (String.mk [Char.ofNat 0]) (by decide) (by decide) (by decide)

/-! ## Metrics middleware (src/middleware/metrics.rs) -/

/-- Metric instrument operations performed by the metrics middleware, plus a
marker for the inner service invocation. -/
inductive MetricEvent where
  | activeRequestsAdd (delta : Int)
  | requestSizeRecord (bytes : Nat)
  | innerCall
  | responseSizeRecord (bytes : Nat)
  | durationRecord
deriving DecidableEq, Repr

/-- Event sequence of `RequestMetricsMiddleware::call` (metrics.rs lines
237-291): increment the active-request counter, record the request size,
invoke the inner service, decrement the active-request counter when its
future resolves, and only on a success outcome record the response size and
duration.  The inner result is returned unchanged. -/
def metrics_call {ε ρ : Type} (respSize : ρ → Nat) (contentLength : Nat)
    (res : Except ε ρ) : List MetricEvent × Except ε ρ :=
  (MetricEvent.activeRequestsAdd 1 ::
   MetricEvent.requestSizeRecord contentLength ::
   MetricEvent.innerCall ::
   MetricEvent.activeRequestsAdd (-1) ::
   (match res with
    | Except.ok r =>
        [MetricEvent.responseSizeRecord (respSize r), MetricEvent.durationRecord]
    | Except.error _ => []),
   res)

/-- C9: per request, the active-request counter is incremented exactly once
before the inner service runs and decremented exactly once when its future
resolves, in both the success and the error outcome: the event list starts
with one increment before the inner call and one decrement after it, and the
remaining events contain no active-request update. -/
theorem metrics_active_request_pairing {ε ρ : Type} (respSize : ρ → Nat)
    (contentLength : Nat) (res : Except ε ρ) :
    (metrics_call respSize contentLength res).2 = res ∧
    ∃ tail,
      (metrics_call respSize contentLength res).1 =
        MetricEvent.activeRequestsAdd 1 ::
        MetricEvent.requestSizeRecord contentLength ::
        MetricEvent.innerCall ::
        MetricEvent.activeRequestsAdd (-1) :: tail ∧
      ∀ d : Int, MetricEvent.activeRequestsAdd d ∉ tail := by
  refine ⟨rfl, ?_⟩
  cases res with
  | ok r =>
      exact ⟨[MetricEvent.responseSizeRecord (respSize r),
              MetricEvent.durationRecord], rfl, by simp⟩
  | error e => exact ⟨[], rfl, by simp⟩

/-! ## Prometheus scrape handler (src/middleware/metrics.rs) -/

/-- Modelled from the spec: outcome of gathering and text-encoding the
Prometheus registry, which happens in the external prometheus crate.  The
encoder produced UTF-8 text, produced bytes that are not valid UTF-8, or
failed without producing encoded bytes. -/
inductive EncodeOutcome where
  | text (t : String)
  | invalidUtf8
  | failed (msg : String)
deriving DecidableEq, Repr

/-- Body computation of `PrometheusMetricsHandler::metrics` (metrics.rs lines
318-327): on encoder failure report through the global telemetry error
handler and continue; decode the buffer, falling back to the empty string
when the bytes are not valid UTF-8.  Returns the body together with the
errors reported to the global handler. -/
def prometheus_metrics (o : EncodeOutcome) : String × List String :=
  match o with
  | EncodeOutcome.text t => (t, [])
  | EncodeOutcome.invalidUtf8 => ("", [])
  | EncodeOutcome.failed m => ("", [m])

/-- `PrometheusMetricsHandler::call` (metrics.rs lines 330-340): always
resolves to Ok of a response with status 200 and the metrics body. -/
def prometheus_handler_call (o : EncodeOutcome) :
    Except String (Nat × String) × List String :=
  (Except.ok (200, (prometheus_metrics o).1), (prometheus_metrics o).2)

/-- C10: the Prometheus handler always returns Ok with status 200 and never
an error; when encoding fails the body is the empty string and the failure is
reported only through the global error handler; when the encoded bytes are
not valid UTF-8 the body is the empty string; otherwise the body is the
encoded text. -/
theorem prometheus_handler_total (o : EncodeOutcome) :
    (∃ body, (prometheus_handler_call o).1 = Except.ok (200, body)) ∧
    (∀ err, (prometheus_handler_call o).1 ≠ Except.error err) ∧
    (∀ m, o = EncodeOutcome.failed m →
      (prometheus_handler_call o).1 = Except.ok (200, "") ∧
      (prometheus_handler_call o).2 = [m]) ∧
    (o = EncodeOutcome.invalidUtf8 →
      (prometheus_handler_call o).1 = Except.ok (200, "") ∧
      (prometheus_handler_call o).2 = []) ∧
    (∀ t, o = EncodeOutcome.text t →
      (prometheus_handler_call o).1 = Except.ok (200, t) ∧
      (prometheus_handler_call o).2 = []) := by
  refine ⟨⟨(prometheus_metrics o).1, rfl⟩, fun err h => Except.noConfusion h,
    fun m hm => ?_, fun hm => ?_, fun t ht => ?_⟩
  · subst hm; exact ⟨rfl, rfl⟩
  · subst hm; exact ⟨rfl, rfl⟩
  · subst ht; exact ⟨rfl, rfl⟩

theorem prometheus_handler_total_witness :
    ((prometheus_handler_call (EncodeOutcome.failed "boom")).1 =
        Except.ok (200, "") ∧
      (prometheus_handler_call (EncodeOutcome.failed "boom")).2 = ["boom"]) ∧
    ((prometheus_handler_call (EncodeOutcome.text "metrics")).1 =
        Except.ok (200, "metrics") ∧
      (prometheus_handler_call (EncodeOutcome.text "metrics")).2 = []) ∧
    ((prometheus_handler_call EncodeOutcome.invalidUtf8).1 =
        Except.ok (200, "") ∧
      (prometheus_handler_call EncodeOutcome.invalidUtf8).2 = []) :=
  ⟨(prometheus_handler_total (EncodeOutcome.failed "boom")).2.2.1 "boom" rfl,
   (prometheus_handler_total (EncodeOutcome.text "metrics")).2.2.2.2 "metrics" rfl,
   (prometheus_handler_total EncodeOutcome.invalidUtf8).2.2.2.1 rfl⟩

/-! ## UUID route formatter (src/middleware/route_formatter.rs)

The UUID regex `[0-9a-fA-F]{8}-[0-9a-fA-F]{4}-[0-9a-fA-F]{4}-[0-9a-fA-F]{4}-[0-9a-fA-F]{12}`
is a fixed-length alternation-free pattern, so `Regex::replace_all` with it is
exactly leftmost non-overlapping replacement of 36-character windows matching
a per-position character class. -/

/-- Whether a character belongs to the hexadecimal character class
`[0-9a-fA-F]` of UUID_REGEX. -/
def isHexDigitChar (c : Char) : Bool :=
  (48 ≤ c.toNat ∧ c.toNat ≤ 57) ∨ (97 ≤ c.toNat ∧ c.toNat ≤ 102) ∨
  (65 ≤ c.toNat ∧ c.toNat ≤ 70)

/-- Whether a character is the dash separating UUID groups. -/
def isDashChar (c : Char) : Bool := c = '-'

/-- Matcher for a fixed-length character-class pattern: consume one character
per class, failing when a character misses its class or input runs out. -/
def matchShape : List (Char → Bool) → List Char → Option (List Char)
  | [], s => some s
  | _ :: _, [] => none
  | p :: ps, c :: cs => if p c then matchShape ps cs else none

/-- The UUID_REGEX pattern (route_formatter.rs lines 7-8) as a fixed-length
shape: 8-4-4-4-12 hexadecimal groups separated by dashes, 36 characters. -/
def uuidShape : List (Char → Bool) :=
  List.replicate 8 isHexDigitChar ++ [isDashChar] ++
  List.replicate 4 isHexDigitChar ++ [isDashChar] ++
  List.replicate 4 isHexDigitChar ++ [isDashChar] ++
  List.replicate 4 isHexDigitChar ++ [isDashChar] ++
  List.replicate 12 isHexDigitChar

theorem uuidShape_length : uuidShape.length = 36 := by
  simp [uuidShape]

/-- Leftmost match of the UUID pattern at the start of the input. -/
def matchUuid (s : List Char) : Option (List Char) := matchShape uuidShape s

theorem matchShape_length {ps : List (Char → Bool)} {s r : List Char}
    (h : matchShape ps s = some r) : s.length = ps.length + r.length := by
  induction ps generalizing s with
  | nil =>
    simp only [matchShape, Option.some.injEq] at h
    subst h
    simp
  | cons p ps ih =>
    cases s with
    | nil => simp [matchShape] at h
    | cons c cs =>
      simp only [matchShape] at h
      by_cases hc : p c = true
      · rw [if_pos hc] at h
        have hl := ih h
        simp only [List.length_cons]
        omega
      · rw [if_neg hc] at h
        exact absurd h (by simp)

theorem matchUuid_length {s r : List Char} (h : matchUuid s = some r) :
    s.length = 36 + r.length := by
  have hl := matchShape_length h
  rw [uuidShape_length] at hl
  exact hl

/-- Leftmost non-overlapping replacement of UUID matches by an asterisk, the
effect of `Regex::replace_all(path, "*")` in `RegexFormatter::format`
(route_formatter.rs lines 85-89) with UUID_REGEX. -/
def replaceUuids (s : List Char) : List Char :=
  match s with
  | [] => []
  | c :: cs =>
    match h : matchUuid (c :: cs) with
    | some rest => '*' :: replaceUuids rest
    | none => c :: replaceUuids cs
termination_by s.length
decreasing_by
  · have hl := matchUuid_length h
    simp only [List.length_cons] at hl ⊢
    omega
  · simp only [List.length_cons]
    omega

/-- `UuidWildcardFormatter::format` (route_formatter.rs lines 123-127),
which delegates to the RegexFormatter built from UUID_REGEX and the
replacement asterisk. -/
def UuidWildcardFormatter.format (path : String) : String :=
  String.mk (replaceUuids path.data)

theorem replaceUuids_nil : replaceUuids [] = [] := by
  rw [replaceUuids]

theorem replaceUuids_cons_some {c : Char} {cs rest : List Char}
    (h : matchUuid (c :: cs) = some rest) :
    replaceUuids (c :: cs) = '*' :: replaceUuids rest := by
  rw [replaceUuids]
  split
  · rename_i r heq
    rw [h] at heq
    injection heq with heq₂
    rw [heq₂]
  · rename_i heq
    rw [h] at heq
    exact Option.noConfusion heq

theorem replaceUuids_cons_none {c : Char} {cs : List Char}
    (h : matchUuid (c :: cs) = none) :
    replaceUuids (c :: cs) = c :: replaceUuids cs := by
  rw [replaceUuids]
  split
  · rename_i r heq
    rw [h] at heq
    exact Option.noConfusion heq
  · rfl

/-- A prefix of the output of replaceUuids either contains an inserted
asterisk or is the corresponding prefix of the input. -/
theorem replaceUuids_take_or_star (s : List Char) :
    ∀ n : Nat,
      ('*' ∈ (replaceUuids s).take n) ∨ (replaceUuids s).take n = s.take n := by
  induction s using replaceUuids.induct with
  | case1 =>
    intro n
    right
    rw [replaceUuids_nil]
  | case2 c cs rest h ih =>
    intro n
    rw [replaceUuids_cons_some h]
    cases n with
    | zero => right; simp
    | succ m =>
      left
      rw [List.take_succ_cons]
      exact List.mem_cons_self _ _
  | case3 c cs h ih =>
    intro n
    rw [replaceUuids_cons_none h]
    cases n with
    | zero => right; rfl
    | succ m =>
      rcases ih m with hstar | heq
      · left
        rw [List.take_succ_cons]
        exact List.mem_cons_of_mem _ hstar
      · right
        rw [List.take_succ_cons, List.take_succ_cons, heq]

/-- Every character a successful shape match consumed satisfies any property
implied by all the shape's character classes. -/
theorem matchShape_consumed {P : Char → Prop} :
    ∀ (ps : List (Char → Bool)) (s r : List Char),
      matchShape ps s = some r →
      (∀ p, p ∈ ps → ∀ c, p c = true → P c) →
      ∀ c ∈ s.take ps.length, P c := by
  intro ps
  induction ps with
  | nil =>
    intro s r h hp c hc
    simp at hc
  | cons p ps ih =>
    intro s r h hp c hc
    cases s with
    | nil => simp [matchShape] at h
    | cons a as =>
      simp only [matchShape] at h
      by_cases ha : p a = true
      · rw [if_pos ha] at h
        rw [List.length_cons, List.take_succ_cons] at hc
        rcases List.mem_cons.mp hc with rfl | hc₂
        · exact hp p (List.mem_cons_self _ _) c ha
        · exact ih as r h (fun q hq => hp q (List.mem_cons_of_mem _ hq)) c hc₂
      · rw [if_neg ha] at h
        exact absurd h (by simp)

theorem uuidShape_classes {p : Char → Bool} (hp : p ∈ uuidShape) :
    ∀ c, p c = true → (isHexDigitChar c || isDashChar c) = true := by
  intro c hc
  have hmem : p = isHexDigitChar ∨ p = isDashChar := by
    simp only [uuidShape, List.mem_append, List.mem_replicate,
      List.mem_singleton] at hp
    tauto
  rcases hmem with rfl | rfl
  · simp [hc]
  · simp [hc]

/-- A window containing the inserted asterisk can never match the UUID
pattern, because the asterisk is neither a hexadecimal digit nor a dash. -/
theorem matchUuid_isSome_no_star {s : List Char}
    (h : (matchUuid s).isSome = true) : '*' ∉ s.take 36 := by
  intro hmem
  obtain ⟨r, hr⟩ := Option.isSome_iff_exists.mp h
  have hstar := matchShape_consumed uuidShape s r hr
    (fun p hp c hc => uuidShape_classes hp c hc) '*'
    (by rw [uuidShape_length]; exact hmem)
  exact absurd hstar (by decide)

/-- Whether a shape match at the start succeeds depends only on the
characters the shape would consume. -/
theorem matchShape_isSome_congr :
    ∀ (ps : List (Char → Bool)) (u v : List Char),
      u.take ps.length = v.take ps.length →
      (matchShape ps u).isSome = (matchShape ps v).isSome := by
  intro ps
  induction ps with
  | nil => intro u v h; rfl
  | cons p ps ih =>
    intro u v h
    cases u with
    | nil =>
      cases v with
      | nil => rfl
      | cons b bs =>
        rw [List.length_cons, List.take_nil, List.take_succ_cons] at h
        exact absurd h (by simp)
    | cons a as =>
      cases v with
      | nil =>
        rw [List.length_cons, List.take_nil, List.take_succ_cons] at h
        exact absurd h (by simp)
      | cons b bs =>
        rw [List.length_cons, List.take_succ_cons, List.take_succ_cons] at h
        injection h with h1 h2
        subst h1
        simp only [matchShape]
        by_cases ha : p a = true
        · rw [if_pos ha, if_pos ha]
          exact ih as bs h2
        · rw [if_neg ha, if_neg ha]

/-- Whether any position of the input starts a UUID match. -/
def hasUuid (s : List Char) : Bool :=
  match s with
  | [] => false
  | c :: cs => (matchUuid (c :: cs)).isSome || hasUuid cs

theorem replaceUuids_of_not_hasUuid {s : List Char} (h : hasUuid s = false) :
    replaceUuids s = s := by
  induction s with
  | nil => exact replaceUuids_nil
  | cons c cs ih =>
    rw [hasUuid, Bool.or_eq_false_iff] at h
    obtain ⟨h1, h2⟩ := h
    have hm : matchUuid (c :: cs) = none :=
      Option.not_isSome_iff_eq_none.mp (by simp [h1])
    rw [replaceUuids_cons_none hm, ih h2]

/-- The output of replaceUuids contains no UUID match at any position. -/
theorem hasUuid_replaceUuids (s : List Char) :
    hasUuid (replaceUuids s) = false := by
  induction s using replaceUuids.induct with
  | case1 =>
    rw [replaceUuids_nil]
    rfl
  | case2 c cs rest h ih =>
    rw [replaceUuids_cons_some h, hasUuid]
    have hmem : '*' ∈ ('*' :: replaceUuids rest).take 36 := by
      rw [show (36 : Nat) = 35 + 1 from rfl, List.take_succ_cons]
      exact List.mem_cons_self _ _
    have hns : (matchUuid ('*' :: replaceUuids rest)).isSome = false := by
      cases hm : (matchUuid ('*' :: replaceUuids rest)).isSome with
      | false => rfl
      | true => exact absurd hmem (matchUuid_isSome_no_star hm)
    rw [hns, ih]
    rfl
  | case3 c cs h ih =>
    rw [replaceUuids_cons_none h, hasUuid]
    have hns : (matchUuid (c :: replaceUuids cs)).isSome = false := by
      rcases replaceUuids_take_or_star cs 35 with hstar | heq
      · have hmem : '*' ∈ (c :: replaceUuids cs).take 36 := by
          rw [show (36 : Nat) = 35 + 1 from rfl, List.take_succ_cons]
          exact List.mem_cons_of_mem _ hstar
        cases hm : (matchUuid (c :: replaceUuids cs)).isSome with
        | false => rfl
        | true => exact absurd hmem (matchUuid_isSome_no_star hm)
      · have htake : (c :: replaceUuids cs).take 36 = (c :: cs).take 36 := by
          rw [show (36 : Nat) = 35 + 1 from rfl, List.take_succ_cons,
            List.take_succ_cons, heq]
        have hcongr : (matchUuid (c :: replaceUuids cs)).isSome =
            (matchUuid (c :: cs)).isSome :=
          matchShape_isSome_congr uuidShape _ _
            (by rw [uuidShape_length]; exact htake)
        rw [hcongr, h]
        rfl
    rw [hns, ih]
    rfl

/-- C8: the UUID-eliding route formatter is idempotent: formatting an
already-formatted path (UUID segments replaced by an asterisk) changes
nothing, so applying the formatter twice equals applying it once. -/
theorem uuid_formatter_idempotent (path : String) :
    UuidWildcardFormatter.format (UuidWildcardFormatter.format path) =
      UuidWildcardFormatter.format path := by
  show String.mk (replaceUuids (replaceUuids path.data)) =
    String.mk (replaceUuids path.data)
  rw [replaceUuids_of_not_hasUuid (hasUuid_replaceUuids path.data)]

/-! ## Trace context propagation (spec section 4.1)

Injection goes through `ActixClientCarrier::set` (client.rs) and extraction
through `RequestHeaderCarrier::get` (trace.rs).  The wire formats themselves
live in the external opentelemetry SDK and are modelled from the spec: W3C
traceparent as the default, B3 single-header and B3 multi-header as the
alternatives. -/

/-- A position in a distributed trace: trace id (128 bit), span id (64 bit),
and sampling flag. -/
structure SpanContext where
  traceId : Nat
  spanId : Nat
  sampled : Bool
deriving DecidableEq, Repr

/-- A trace context valid for propagation: both ids in range and nonzero. -/
def SpanContext.isValid (c : SpanContext) : Prop :=
  0 < c.traceId ∧ c.traceId < 2 ^ 128 ∧ 0 < c.spanId ∧ c.spanId < 2 ^ 64

/-- Lowercase hexadecimal digit character of a value below 16. -/
def hexDigitChar (d : Nat) : Char :=
  if d < 10 then Char.ofNat (48 + d) else Char.ofNat (87 + d)

/-- Fixed-width big-endian lowercase hexadecimal encoding. -/
def toHexFixed : Nat → Nat → List Char
  | 0, _ => []
  | w + 1, n => toHexFixed w (n / 16) ++ [hexDigitChar (n % 16)]

/-- Value of one hexadecimal digit character, none for other characters. -/
def hexVal (c : Char) : Option Nat :=
  if 48 ≤ c.toNat ∧ c.toNat ≤ 57 then some (c.toNat - 48)
  else if 97 ≤ c.toNat ∧ c.toNat ≤ 102 then some (c.toNat - 87)
  else if 65 ≤ c.toNat ∧ c.toNat ≤ 70 then some (c.toNat - 55)
  else none

/-- Big-endian hexadecimal parse accumulating into the second argument. -/
def parseHexAux : List Char → Nat → Option Nat
  | [], acc => some acc
  | c :: cs, acc =>
    match hexVal c with
    | some d => parseHexAux cs (16 * acc + d)
    | none => none

theorem toHexFixed_length (w : Nat) : ∀ n : Nat, (toHexFixed w n).length = w := by
  induction w with
  | zero => intro n; rfl
  | succ w ih =>
    intro n
    simp [toHexFixed, ih]

theorem hexVal_hexDigitChar {d : Nat} (h : d < 16) :
    hexVal (hexDigitChar d) = some d := by
  interval_cases d <;> decide

theorem parseHexAux_append (xs ys : List Char) (acc : Nat) :
    parseHexAux (xs ++ ys) acc =
      match parseHexAux xs acc with
      | some m => parseHexAux ys m
      | none => none := by
  induction xs generalizing acc with
  | nil => rfl
  | cons c cs ih =>
    cases h : hexVal c with
    | some d =>
      simp only [List.cons_append, parseHexAux, h]
      exact ih _
    | none => simp only [List.cons_append, parseHexAux, h]

theorem parseHexAux_toHexFixed (w : Nat) :
    ∀ n acc : Nat, n < 16 ^ w →
      parseHexAux (toHexFixed w n) acc = some (acc * 16 ^ w + n) := by
  induction w with
  | zero =>
    intro n acc h
    have hn : n = 0 := by
      have h1 : (16 : Nat) ^ 0 = 1 := pow_zero 16
      omega
    subst hn
    simp [toHexFixed, parseHexAux]
  | succ w ih =>
    intro n acc h
    have hdiv : n / 16 < 16 ^ w := by
      rw [Nat.div_lt_iff_lt_mul (by norm_num : (0 : Nat) < 16)]
      calc n < 16 ^ (w + 1) := h
        _ = 16 ^ w * 16 := pow_succ 16 w
    rw [toHexFixed, parseHexAux_append, ih (n / 16) acc hdiv]
    show parseHexAux [hexDigitChar (n % 16)] (acc * 16 ^ w + n / 16) =
      some (acc * 16 ^ (w + 1) + n)
    have hm : n % 16 < 16 := Nat.mod_lt _ (by norm_num)
    simp only [parseHexAux, hexVal_hexDigitChar hm]
    congr 1
    rw [pow_succ 16 w, ← mul_assoc]
    have hdm := Nat.div_add_mod n 16
    generalize acc * 16 ^ w = B
    omega

/-- The zero-accumulator form of the hexadecimal round trip. -/
theorem parseHexAux_toHexFixed_zero {w n : Nat} (h : n < 16 ^ w) :
    parseHexAux (toHexFixed w n) 0 = some n := by
  rw [parseHexAux_toHexFixed w n 0 h]
  simp

theorem toHexFixed_valid (w : Nat) :
    ∀ n : Nat, ∀ c ∈ toHexFixed w n, isValidHeaderValueChar c = true := by
  induction w with
  | zero => intro n c hc; simp [toHexFixed] at hc
  | succ w ih =>
    intro n c hc
    simp only [toHexFixed, List.mem_append, List.mem_singleton] at hc
    rcases hc with hc | rfl
    · exact ih _ c hc
    · have hm : n % 16 < 16 := Nat.mod_lt _ (by norm_num)
      generalize n % 16 = d at hm
      interval_cases d <;> decide

/-- The server-side extractor `RequestHeaderCarrier::get` (trace.rs lines
275-279): header lookup (header values are strings in this model, so the
`to_str` conversion always succeeds). -/
def RequestHeaderCarrier.get (h : Headers) (k : String) : Option String :=
  getHeader h k

/-- The W3C traceparent header name. -/
def traceparentKey : String := "traceparent"

/-- Modelled from the spec: the W3C traceparent value of a context: version
00, 32 hex digits of trace id, 16 hex digits of span id, 2 hex digits of the
flags byte (01 sampled, 00 not), dash separated. -/
def traceparentValue (c : SpanContext) : String :=
  String.mk ('0' :: '0' :: '-' ::
    (toHexFixed 32 c.traceId ++ '-' ::
      (toHexFixed 16 c.spanId ++ '-' ::
        toHexFixed 2 (if c.sampled then 1 else 0))))

/-- Modelled from the spec: W3C inject writes the traceparent header through
the client carrier (none models the carrier panic on invalid input). -/
def w3cInject (c : SpanContext) (h : Headers) : Option Headers :=
  ActixClientCarrier.set h traceparentKey (traceparentValue c)

/-- Modelled from the spec: W3C extract parses a traceparent value: version
00, fixed-width hexadecimal fields with dash separators, nonzero ids;
sampling is the low bit of the flags byte.  Malformed values yield none (the
middleware then degrades to a root context). -/
def parseTraceparent (s : List Char) : Option SpanContext :=
  match s with
  | v₁ :: v₂ :: d₀ :: rest =>
    if v₁ = '0' ∧ v₂ = '0' ∧ d₀ = '-' then
      match rest.drop 32 with
      | d₁ :: rest₂ =>
        if d₁ = '-' then
          match rest₂.drop 16 with
          | [d₂, f₁, f₂] =>
            if d₂ = '-' then
              match parseHexAux (rest.take 32) 0, parseHexAux (rest₂.take 16) 0,
                  parseHexAux [f₁, f₂] 0 with
              | some t, some sp, some fl =>
                if 0 < t ∧ 0 < sp then
                  some { traceId := t, spanId := sp, sampled := fl % 2 == 1 }
                else none
              | _, _, _ => none
            else none
          | _ => none
        else none
      | [] => none
    else none
  | _ => none

/-- Modelled from the spec: W3C extract reads the traceparent header through
the server carrier and parses it. -/
def w3cExtract (h : Headers) : Option SpanContext :=
  match RequestHeaderCarrier.get h traceparentKey with
  | some v => parseTraceparent v.data
  | none => none

/-- The B3 single-header name. -/
def b3Key : String := "b3"

/-- Modelled from the spec: the B3 single-header value of a context:
trace id, span id and sampling state, dash separated. -/
def b3Value (c : SpanContext) : String :=
  String.mk (toHexFixed 32 c.traceId ++ '-' ::
    (toHexFixed 16 c.spanId ++ '-' :: [if c.sampled then '1' else '0']))

/-- Modelled from the spec: B3 single-header inject through the client
carrier. -/
def b3Inject (c : SpanContext) (h : Headers) : Option Headers :=
  ActixClientCarrier.set h b3Key (b3Value c)

/-- Modelled from the spec: B3 single-header extract: fixed-width
hexadecimal ids, dash separators, a one-character sampling state. -/
def parseB3Single (s : List Char) : Option SpanContext :=
  match s.drop 32 with
  | d₁ :: rest₂ =>
    if d₁ = '-' then
      match rest₂.drop 16 with
      | [d₂, fc] =>
        if d₂ = '-' then
          match parseHexAux (s.take 32) 0, parseHexAux (rest₂.take 16) 0 with
          | some t, some sp =>
            if 0 < t ∧ 0 < sp ∧ (fc = '1' ∨ fc = '0') then
              some { traceId := t, spanId := sp, sampled := fc == '1' }
            else none
          | _, _ => none
        else none
      | _ => none
    else none
  | [] => none

/-- Modelled from the spec: B3 single-header extract through the server
carrier. -/
def b3Extract (h : Headers) : Option SpanContext :=
  match RequestHeaderCarrier.get h b3Key with
  | some v => parseB3Single v.data
  | none => none

/-- The B3 multi-header trace id header name. -/
def xb3TraceIdKey : String := "x-b3-traceid"

/-- The B3 multi-header span id header name. -/
def xb3SpanIdKey : String := "x-b3-spanid"

/-- The B3 multi-header sampling state header name. -/
def xb3SampledKey : String := "x-b3-sampled"

/-- Modelled from the spec: B3 multi-header inject writes the trace id, span
id and sampling state headers through the client carrier. -/
def b3MultiInject (c : SpanContext) (h : Headers) : Option Headers :=
  (ActixClientCarrier.set h xb3TraceIdKey
      (String.mk (toHexFixed 32 c.traceId))).bind fun h₁ =>
    (ActixClientCarrier.set h₁ xb3SpanIdKey
        (String.mk (toHexFixed 16 c.spanId))).bind fun h₂ =>
      ActixClientCarrier.set h₂ xb3SampledKey (if c.sampled then "1" else "0")

/-- Modelled from the spec: B3 multi-header extract reads the three headers
through the server carrier, requiring full-width nonzero hexadecimal ids and
a 0/1 sampling state. -/
def b3MultiExtract (h : Headers) : Option SpanContext :=
  match RequestHeaderCarrier.get h xb3TraceIdKey,
      RequestHeaderCarrier.get h xb3SpanIdKey,
      RequestHeaderCarrier.get h xb3SampledKey with
  | some tv, some sv, some fv =>
    if tv.data.length = 32 ∧ sv.data.length = 16 then
      match parseHexAux tv.data 0, parseHexAux sv.data 0 with
      | some t, some sp =>
        if 0 < t ∧ 0 < sp ∧ (fv = "1" ∨ fv = "0") then
          some { traceId := t, spanId := sp, sampled := fv == "1" }
        else none
      | _, _ => none
    else none
  | _, _, _ => none

theorem traceparentValue_valid (t sp : Nat) (sm : Bool) :
    isValidHeaderValue (traceparentValue ⟨t, sp, sm⟩) = true := by
  show ('0' :: '0' :: '-' :: (toHexFixed 32 t ++ '-' :: (toHexFixed 16 sp ++
    '-' :: toHexFixed 2 (if sm then 1 else 0)))).all isValidHeaderValueChar = true
  rw [List.all_eq_true]
  intro c hc
  simp only [List.mem_cons, List.mem_append] at hc
  rcases hc with rfl | rfl | rfl | hc | rfl | hc | rfl | hc
  · decide
  · decide
  · decide
  · exact toHexFixed_valid 32 t c hc
  · decide
  · exact toHexFixed_valid 16 sp c hc
  · decide
  · exact toHexFixed_valid 2 _ c hc

theorem parseTraceparent_value (t sp : Nat) (sm : Bool)
    (ht0 : 0 < t) (ht : t < 2 ^ 128) (hs0 : 0 < sp) (hs : sp < 2 ^ 64) :
    parseTraceparent ('0' :: '0' :: '-' ::
      (toHexFixed 32 t ++ '-' :: (toHexFixed 16 sp ++ '-' ::
        toHexFixed 2 (if sm then 1 else 0)))) =
      some { traceId := t, spanId := sp, sampled := sm } := by
  have ht16 : t < 16 ^ 32 := by
    have he : (16 : Nat) ^ 32 = 2 ^ 128 := by norm_num
    omega
  have hs16 : sp < 16 ^ 16 := by
    have he : (16 : Nat) ^ 16 = 2 ^ 64 := by norm_num
    omega
  have hpt : parseHexAux (toHexFixed 32 t) 0 = some t :=
    parseHexAux_toHexFixed_zero ht16
  have hps : parseHexAux (toHexFixed 16 sp) 0 = some sp :=
    parseHexAux_toHexFixed_zero hs16
  cases sm with
  | true =>
    rw [show toHexFixed 2 (if (true : Bool) then (1 : Nat) else 0) = ['0', '1']
      from by decide]
    have hdrop32 : (toHexFixed 32 t ++ '-' ::
        (toHexFixed 16 sp ++ '-' :: ['0', '1'])).drop 32 =
        '-' :: (toHexFixed 16 sp ++ '-' :: ['0', '1']) :=
      List.drop_left' (toHexFixed_length 32 t)
    have htake32 : (toHexFixed 32 t ++ '-' ::
        (toHexFixed 16 sp ++ '-' :: ['0', '1'])).take 32 = toHexFixed 32 t :=
      List.take_left' (toHexFixed_length 32 t)
    have hdrop16 : (toHexFixed 16 sp ++ '-' :: ['0', '1']).drop 16 =
        '-' :: ['0', '1'] := List.drop_left' (toHexFixed_length 16 sp)
    have htake16 : (toHexFixed 16 sp ++ '-' :: ['0', '1']).take 16 =
        toHexFixed 16 sp := List.take_left' (toHexFixed_length 16 sp)
    have hpf : parseHexAux ['0', '1'] 0 = some (1 : Nat) := by decide
    simp [parseTraceparent, hdrop32, htake32, hdrop16, htake16, hpt, hps,
      hpf, ht0, hs0]
  | false =>
    rw [show toHexFixed 2 (if (false : Bool) then (1 : Nat) else 0) = ['0', '0']
      from by decide]
    have hdrop32 : (toHexFixed 32 t ++ '-' ::
        (toHexFixed 16 sp ++ '-' :: ['0', '0'])).drop 32 =
        '-' :: (toHexFixed 16 sp ++ '-' :: ['0', '0']) :=
      List.drop_left' (toHexFixed_length 32 t)
    have htake32 : (toHexFixed 32 t ++ '-' ::
        (toHexFixed 16 sp ++ '-' :: ['0', '0'])).take 32 = toHexFixed 32 t :=
      List.take_left' (toHexFixed_length 32 t)
    have hdrop16 : (toHexFixed 16 sp ++ '-' :: ['0', '0']).drop 16 =
        '-' :: ['0', '0'] := List.drop_left' (toHexFixed_length 16 sp)
    have htake16 : (toHexFixed 16 sp ++ '-' :: ['0', '0']).take 16 =
        toHexFixed 16 sp := List.take_left' (toHexFixed_length 16 sp)
    have hpf : parseHexAux ['0', '0'] 0 = some (0 : Nat) := by decide
    simp [parseTraceparent, hdrop32, htake32, hdrop16, htake16, hpt, hps,
      hpf, ht0, hs0]

theorem w3c_round_trip (c : SpanContext) (h : Headers) (hv : c.isValid) :
    ∃ h₂, w3cInject c h = some h₂ ∧ w3cExtract h₂ = some c := by
  obtain ⟨t, sp, sm⟩ := c
  simp only [SpanContext.isValid] at hv
  obtain ⟨ht0, ht, hs0, hs⟩ := hv
  have hname : isValidHeaderName traceparentKey = true := by decide
  have hnorm : normalizeHeaderName traceparentKey = traceparentKey := by decide
  have hval := traceparentValue_valid t sp sm
  refine ⟨setHeader h traceparentKey (traceparentValue ⟨t, sp, sm⟩), ?_, ?_⟩
  · rw [w3cInject, ActixClientCarrier.set, if_pos hname, if_pos hval, hnorm]
  · have hget : RequestHeaderCarrier.get
        (setHeader h traceparentKey (traceparentValue ⟨t, sp, sm⟩))
        traceparentKey = some (traceparentValue ⟨t, sp, sm⟩) :=
      getHeader_setHeader_same h traceparentKey _
    rw [w3cExtract, hget]
    exact parseTraceparent_value t sp sm ht0 ht hs0 hs

theorem b3Value_valid (t sp : Nat) (sm : Bool) :
    isValidHeaderValue (b3Value ⟨t, sp, sm⟩) = true := by
  show (toHexFixed 32 t ++ '-' :: (toHexFixed 16 sp ++
    '-' :: [if sm then '1' else '0'])).all isValidHeaderValueChar = true
  rw [List.all_eq_true]
  intro c hc
  simp only [List.mem_cons, List.mem_append] at hc
  rcases hc with hc | rfl | hc | rfl | rfl | hc
  · exact toHexFixed_valid 32 t c hc
  · decide
  · exact toHexFixed_valid 16 sp c hc
  · decide
  · cases sm <;> decide
  · simp at hc

theorem parseB3Single_value (t sp : Nat) (sm : Bool)
    (ht0 : 0 < t) (ht : t < 2 ^ 128) (hs0 : 0 < sp) (hs : sp < 2 ^ 64) :
    parseB3Single (toHexFixed 32 t ++ '-' :: (toHexFixed 16 sp ++ '-' ::
      [if sm then '1' else '0'])) =
      some { traceId := t, spanId := sp, sampled := sm } := by
  have ht16 : t < 16 ^ 32 := by
    have he : (16 : Nat) ^ 32 = 2 ^ 128 := by norm_num
    omega
  have hs16 : sp < 16 ^ 16 := by
    have he : (16 : Nat) ^ 16 = 2 ^ 64 := by norm_num
    omega
  have hpt : parseHexAux (toHexFixed 32 t) 0 = some t :=
    parseHexAux_toHexFixed_zero ht16
  have hps : parseHexAux (toHexFixed 16 sp) 0 = some sp :=
    parseHexAux_toHexFixed_zero hs16
  cases sm with
  | true =>
    rw [show (if (true : Bool) then '1' else '0') = '1' from rfl]
    have hdrop32 : (toHexFixed 32 t ++ '-' ::
        (toHexFixed 16 sp ++ '-' :: ['1'])).drop 32 =
        '-' :: (toHexFixed 16 sp ++ '-' :: ['1']) :=
      List.drop_left' (toHexFixed_length 32 t)
    have htake32 : (toHexFixed 32 t ++ '-' ::
        (toHexFixed 16 sp ++ '-' :: ['1'])).take 32 = toHexFixed 32 t :=
      List.take_left' (toHexFixed_length 32 t)
    have hdrop16 : (toHexFixed 16 sp ++ '-' :: ['1']).drop 16 = '-' :: ['1'] :=
      List.drop_left' (toHexFixed_length 16 sp)
    have htake16 : (toHexFixed 16 sp ++ '-' :: ['1']).take 16 =
        toHexFixed 16 sp := List.take_left' (toHexFixed_length 16 sp)
    simp [parseB3Single, hdrop32, htake32, hdrop16, htake16, hpt, hps, ht0, hs0]
  | false =>
    rw [show (if (false : Bool) then '1' else '0') = '0' from rfl]
    have hdrop32 : (toHexFixed 32 t ++ '-' ::
        (toHexFixed 16 sp ++ '-' :: ['0'])).drop 32 =
        '-' :: (toHexFixed 16 sp ++ '-' :: ['0']) :=
      List.drop_left' (toHexFixed_length 32 t)
    have htake32 : (toHexFixed 32 t ++ '-' ::
        (toHexFixed 16 sp ++ '-' :: ['0'])).take 32 = toHexFixed 32 t :=
      List.take_left' (toHexFixed_length 32 t)
    have hdrop16 : (toHexFixed 16 sp ++ '-' :: ['0']).drop 16 = '-' :: ['0'] :=
      List.drop_left' (toHexFixed_length 16 sp)
    have htake16 : (toHexFixed 16 sp ++ '-' :: ['0']).take 16 =
        toHexFixed 16 sp := List.take_left' (toHexFixed_length 16 sp)
    simp [parseB3Single, hdrop32, htake32, hdrop16, htake16, hpt, hps, ht0, hs0]

theorem b3_round_trip (c : SpanContext) (h : Headers) (hv : c.isValid) :
    ∃ h₂, b3Inject c h = some h₂ ∧ b3Extract h₂ = some c := by
  obtain ⟨t, sp, sm⟩ := c
  simp only [SpanContext.isValid] at hv
  obtain ⟨ht0, ht, hs0, hs⟩ := hv
  have hname : isValidHeaderName b3Key = true := by decide
  have hnorm : normalizeHeaderName b3Key = b3Key := by decide
  have hval := b3Value_valid t sp sm
  refine ⟨setHeader h b3Key (b3Value ⟨t, sp, sm⟩), ?_, ?_⟩
  · rw [b3Inject, ActixClientCarrier.set, if_pos hname, if_pos hval, hnorm]
  · have hget : RequestHeaderCarrier.get
        (setHeader h b3Key (b3Value ⟨t, sp, sm⟩)) b3Key =
        some (b3Value ⟨t, sp, sm⟩) :=
      getHeader_setHeader_same h b3Key _
    rw [b3Extract, hget]
    exact parseB3Single_value t sp sm ht0 ht hs0 hs

theorem b3MultiExtract_of_gets (hs : Headers) (t sp : Nat) (fv : String)
    (hg1 : RequestHeaderCarrier.get hs xb3TraceIdKey =
      some (String.mk (toHexFixed 32 t)))
    (hg2 : RequestHeaderCarrier.get hs xb3SpanIdKey =
      some (String.mk (toHexFixed 16 sp)))
    (hg3 : RequestHeaderCarrier.get hs xb3SampledKey = some fv)
    (hpt : parseHexAux (toHexFixed 32 t) 0 = some t)
    (hps : parseHexAux (toHexFixed 16 sp) 0 = some sp)
    (ht0 : 0 < t) (hs0 : 0 < sp) (hfv : fv = "1" ∨ fv = "0") :
    b3MultiExtract hs = some ⟨t, sp, fv == "1"⟩ := by
  unfold b3MultiExtract
  rw [hg1, hg2, hg3]
  dsimp only
  rw [if_pos (And.intro (toHexFixed_length 32 t) (toHexFixed_length 16 sp))]
  rw [hpt, hps]
  dsimp only
  rw [if_pos (And.intro ht0 (And.intro hs0 hfv))]

theorem b3_multi_round_trip (c : SpanContext) (h : Headers) (hv : c.isValid) :
    ∃ h₂, b3MultiInject c h = some h₂ ∧ b3MultiExtract h₂ = some c := by
  obtain ⟨t, sp, sm⟩ := c
  simp only [SpanContext.isValid] at hv
  obtain ⟨ht0, ht, hs0, hs⟩ := hv
  have ht16 : t < 16 ^ 32 := by
    have he : (16 : Nat) ^ 32 = 2 ^ 128 := by norm_num
    omega
  have hs16 : sp < 16 ^ 16 := by
    have he : (16 : Nat) ^ 16 = 2 ^ 64 := by norm_num
    omega
  have hpt : parseHexAux (toHexFixed 32 t) 0 = some t :=
    parseHexAux_toHexFixed_zero ht16
  have hps : parseHexAux (toHexFixed 16 sp) 0 = some sp :=
    parseHexAux_toHexFixed_zero hs16
  have hn1 : isValidHeaderName xb3TraceIdKey = true := by decide
  have hn2 : isValidHeaderName xb3SpanIdKey = true := by decide
  have hn3 : isValidHeaderName xb3SampledKey = true := by decide
  have hm1 : normalizeHeaderName xb3TraceIdKey = xb3TraceIdKey := by decide
  have hm2 : normalizeHeaderName xb3SpanIdKey = xb3SpanIdKey := by decide
  have hm3 : normalizeHeaderName xb3SampledKey = xb3SampledKey := by decide
  have hv1 : isValidHeaderValue (String.mk (toHexFixed 32 t)) = true := by
    show (toHexFixed 32 t).all isValidHeaderValueChar = true
    rw [List.all_eq_true]
    intro c hc
    exact toHexFixed_valid 32 t c hc
  have hv2 : isValidHeaderValue (String.mk (toHexFixed 16 sp)) = true := by
    show (toHexFixed 16 sp).all isValidHeaderValueChar = true
    rw [List.all_eq_true]
    intro c hc
    exact toHexFixed_valid 16 sp c hc
  have hv3 : isValidHeaderValue (if sm then "1" else "0") = true := by
    cases sm <;> decide
  refine ⟨setHeader (setHeader (setHeader h xb3TraceIdKey
      (String.mk (toHexFixed 32 t))) xb3SpanIdKey
      (String.mk (toHexFixed 16 sp))) xb3SampledKey
      (if sm then "1" else "0"), ?_, ?_⟩
  · rw [b3MultiInject, ActixClientCarrier.set, if_pos hn1, if_pos hv1, hm1]
    simp only [Option.some_bind']
    rw [ActixClientCarrier.set, if_pos hn2, if_pos hv2, hm2]
    simp only [Option.some_bind']
    rw [ActixClientCarrier.set, if_pos hn3, if_pos hv3, hm3]
  · have hg1 : RequestHeaderCarrier.get
        (setHeader (setHeader (setHeader h xb3TraceIdKey
            (String.mk (toHexFixed 32 t))) xb3SpanIdKey
            (String.mk (toHexFixed 16 sp))) xb3SampledKey
            (if sm then "1" else "0")) xb3TraceIdKey =
        some (String.mk (toHexFixed 32 t)) := by
      rw [RequestHeaderCarrier.get,
        getHeader_setHeader_ne _ _ _ _ (by decide),
        getHeader_setHeader_ne _ _ _ _ (by decide)]
      exact getHeader_setHeader_same _ _ _
    have hg2 : RequestHeaderCarrier.get
        (setHeader (setHeader (setHeader h xb3TraceIdKey
            (String.mk (toHexFixed 32 t))) xb3SpanIdKey
            (String.mk (toHexFixed 16 sp))) xb3SampledKey
            (if sm then "1" else "0")) xb3SpanIdKey =
        some (String.mk (toHexFixed 16 sp)) := by
      rw [RequestHeaderCarrier.get,
        getHeader_setHeader_ne _ _ _ _ (by decide)]
      exact getHeader_setHeader_same _ _ _
    have hg3 : RequestHeaderCarrier.get
        (setHeader (setHeader (setHeader h xb3TraceIdKey
            (String.mk (toHexFixed 32 t))) xb3SpanIdKey
            (String.mk (toHexFixed 16 sp))) xb3SampledKey
            (if sm then "1" else "0")) xb3SampledKey =
        some (if sm then "1" else "0") := by
      rw [RequestHeaderCarrier.get]
      exact getHeader_setHeader_same _ _ _
    have hfv : (if sm then "1" else "0") = "1" ∨
        (if sm then "1" else "0") = "0" := by
      cases sm
      · right; rfl
      · left; rfl
    have hsm : ((if sm then "1" else "0") == "1") = sm := by
      cases sm <;> decide
    have hres := b3MultiExtract_of_gets _ t sp (if sm then "1" else "0")
      hg1 hg2 hg3 hpt hps ht0 hs0 hfv
    rw [hres, hsm]

/-- C1: for every valid trace context and any header carrier, injecting the
context through the client carrier and then extracting through the server
carrier restores the context exactly — trace id, span id and sampling flag —
for each supported wire format: W3C traceparent, B3 single header, and B3
multi header. -/
theorem propagation_round_trip (c : SpanContext) (h : Headers)
    (hv : c.isValid) :
    (∃ h₂, w3cInject c h = some h₂ ∧ w3cExtract h₂ = some c) ∧
    (∃ h₂, b3Inject c h = some h₂ ∧ b3Extract h₂ = some c) ∧
    (∃ h₂, b3MultiInject c h = some h₂ ∧ b3MultiExtract h₂ = some c) :=
  ⟨w3c_round_trip c h hv, b3_round_trip c h hv, b3_multi_round_trip c h hv⟩

theorem propagation_round_trip_witness :
    (∃ h₂, w3cInject ⟨1, 2, true⟩ [] = some h₂ ∧
      w3cExtract h₂ = some ⟨1, 2, true⟩) ∧
    (∃ h₂, b3Inject ⟨1, 2, true⟩ [] = some h₂ ∧
      b3Extract h₂ = some ⟨1, 2, true⟩) ∧
    (∃ h₂, b3MultiInject ⟨1, 2, true⟩ [] = some h₂ ∧
      b3MultiExtract h₂ = some ⟨1, 2, true⟩) :=
  propagation_round_trip ⟨1, 2, true⟩ [] (by simp [SpanContext.isValid])

end ActixWebOtel
